import Mathlib

/-!
Verification of the storage layer of the AI annotation tool repository.

The definitions below are a shallow embedding of the JavaScript storage
code:

* src/utils/storageService.js  -- the storage facade (getThreads, getThread,
  saveThread, updateThread, deleteThread, importThreads, updateAnnotation,
  deleteAnnotation, syncToRemote);
* src/utils/indexedDBStorage.js -- the local IndexedDB engine;
* src/utils/firebaseStorage.js  -- the remote Firebase engine;
* src/utils/dateUtils.js        -- convertAnnotationsToCSV.

Asynchronous functions are embedded as pure state-passing functions: an
operation takes the stored collection (a list of threads, or the remote
document map) and returns the operation result as an Except value together
with the collection state after the call.  A thrown JavaScript error is an
Except.error value; a caught-and-rethrown error stays an Except.error.
-/

namespace AnnTool

/-- Errors thrown by the storage layer.  notFound embeds the thrown
"Thread ... not found" errors, authRequired the "User not authenticated"
errors, and ioFailure an IndexedDB request or transaction failure. -/
inductive StorageErr where
  | notFound
  | authRequired
  | ioFailure
deriving Repr, DecidableEq

/-- One reviewer judgment attached to a thread.  Fields mirror the object
the UI passes as annotationData (rating, notes, tags plus identity fields
createdBy / createdByUid) and the timestamp field the mutation overwrites.
Absent or falsy fields are modelled as none. -/
structure Annotation where
  rating : Option String
  notes : Option String
  tags : Option (List String)
  timestamp : Option String
  createdBy : Option String
  createdByUid : Option String
deriving Repr, DecidableEq

/-- The annotations field of a stored thread as JavaScript sees it: an
array, a legacy bare object, or a falsy value (null / undefined). -/
inductive AnnField where
  | absent
  | single (a : Annotation)
  | arr (l : List Annotation)
deriving Repr, DecidableEq

/-- A stored conversation thread.  Fields not examined by the storage layer
(createdAt, updatedAt, messages, ...) are carried verbatim by the object
spreads in the source; messages stands in for that opaque payload. -/
structure Thread where
  id : String
  title : Option String
  isAnnotated : Bool
  annotations : AnnField
  messages : List String
deriving Repr, DecidableEq

/-- The normalization both annotation mutations perform:
Array.isArray(x) ? x : (x ? [x] : []). -/
def normalizeAnn : AnnField → List Annotation
  | .absent => []
  | .single a => [a]
  | .arr l => l

/-- Primary-key lookup used by the facade in local mode
(threads.find(t approximately t.id === threadId), and the IndexedDB
getThreadById keyed get). -/
def getThreadById (store : List Thread) (threadId : String) : Option Thread :=
  store.find? (fun t => t.id == threadId)

/-- The JavaScript pattern: index = threads.findIndex(t.id === id);
if (index >= 0) threads[index] = updated; else threads.push(updated).
Replacing the first match, else appending, is the same function. -/
def replaceOrPush (store : List Thread) (threadId : String) (updated : Thread) :
    List Thread :=
  match store with
  | [] => [updated]
  | t :: rest =>
      if t.id == threadId then updated :: rest
      else t :: replaceOrPush rest threadId updated

/-- Object spread of a complete record over the loaded thread:
const updatedThread = ...thread, ...updates.  Every caller inside the
storage layer passes a complete thread object as updates, so the spread
yields exactly the updates record. -/
def mergeFull (_thread updates : Thread) : Thread := updates

/-- storageService.updateThread in local mode: load by id, throw
"Thread not found" if absent, otherwise merge and write the whole
collection back (read-modify-write).  The pair carries the returned value
and the stored collection after the call. -/
def updateThreadL (store : List Thread) (threadId : String) (updates : Thread) :
    Except StorageErr Bool × List Thread :=
  match getThreadById store threadId with
  | none => (.error .notFound, store)
  | some thread =>
      let updatedThread := mergeFull thread updates
      (.ok true, replaceOrPush store threadId updatedThread)

/-- storageService.deleteThread in local mode: filter the collection; if
nothing was removed return false without writing, else write the filtered
collection and return true. -/
def deleteThreadL (store : List Thread) (threadId : String) :
    Except StorageErr Bool × List Thread :=
  let filteredThreads := store.filter (fun t => t.id != threadId)
  if filteredThreads.length = store.length then (.ok false, store)
  else (.ok true, filteredThreads)

/-- The thread object built by storageService.updateAnnotation once the
thread was found: isAnnotated set to true, the caller data appended with
its timestamp overwritten by the current time. -/
def appendAnnotationT (t : Thread) (data : Annotation) (now : String) : Thread :=
  { t with
      isAnnotated := true
      annotations := .arr (normalizeAnn t.annotations ++
        [{ data with timestamp := some now }]) }

/-- The thread object built by storageService.deleteAnnotation once the
thread was found.  The guard is the literal source condition
updatedAnnotations.length > annotationIndex compared over the integers;
splice is JavaScript Array.prototype.splice(start, 1), whose negative
start counts from the end, clamped at 0. -/
def spliceStart (len : Nat) (i : Int) : Nat :=
  if i < 0 then (len + i).toNat else min i.toNat len

/-- Remove the one element splice(start, 1) removes, if any. -/
def spliceOne (l : List Annotation) (i : Int) : List Annotation :=
  let s := spliceStart l.length i
  l.take s ++ l.drop (s + 1)

def deleteAnnotationT (t : Thread) (index : Int) : Thread :=
  let updatedAnnotations := normalizeAnn t.annotations
  let updatedAnnotations :=
    if (updatedAnnotations.length : Int) > index then
      spliceOne updatedAnnotations index
    else updatedAnnotations
  { t with
      annotations := .arr updatedAnnotations
      isAnnotated := decide (updatedAnnotations.length > 0) }

/-- storageService.updateAnnotation in local mode: getThread, throw
notFound when absent, else write the appended thread back through
updateThread. -/
def updateAnnotationL (store : List Thread) (threadId : String)
    (data : Annotation) (now : String) : Except StorageErr Bool × List Thread :=
  match getThreadById store threadId with
  | none => (.error .notFound, store)
  | some thread => updateThreadL store threadId (appendAnnotationT thread data now)

/-- storageService.deleteAnnotation in local mode: getThread, throw
notFound when absent, else write the spliced thread back through
updateThread. -/
def deleteAnnotationL (store : List Thread) (threadId : String)
    (index : Int) : Except StorageErr Bool × List Thread :=
  match getThreadById store threadId with
  | none => (.error .notFound, store)
  | some thread => updateThreadL store threadId (deleteAnnotationT thread index)

/-- The derived-flag invariant of the specification: isAnnotated holds
exactly when the (normalized) annotations sequence is non-empty. -/
def annInv (t : Thread) : Prop :=
  t.isAnnotated = true ↔ 0 < (normalizeAnn t.annotations).length

instance (t : Thread) : Decidable (annInv t) := by
  unfold annInv; infer_instance

/-- One annotation mutation as issued through the facade: the data of an
updateAnnotation call, or the index of a deleteAnnotation call. -/
inductive AnnOp where
  | append (data : Annotation) (now : String)
  | del (index : Int)

/-- The thread state the facade writes back when the mutated thread was
found (the updatedThread argument of the final updateThread call). -/
def applyAnnOpT (t : Thread) : AnnOp → Thread
  | .append data now => appendAnnotationT t data now
  | .del index => deleteAnnotationT t index

lemma annInv_applyAnnOpT (t : Thread) (op : AnnOp) : annInv (applyAnnOpT t op) := by
  cases op with
  | append data now =>
      simp [applyAnnOpT, appendAnnotationT, annInv, normalizeAnn]
  | del index =>
      simp only [applyAnnOpT, deleteAnnotationT, annInv, normalizeAnn]
      constructor
      · intro h
        simpa using of_decide_eq_true h
      · intro h
        simpa using decide_eq_true (p := _ > 0) (by simpa using h)

lemma annInv_foldl (ops : List AnnOp) :
    ∀ t : Thread, ops ≠ [] → annInv (ops.foldl applyAnnOpT t) := by
  induction ops with
  | nil => intro t h; exact absurd rfl h
  | cons op rest ih =>
      intro t _
      by_cases hr : rest = []
      · subst hr; simpa using annInv_applyAnnOpT t op
      · simpa using ih (applyAnnOpT t op) hr

/-! ## Local engine with failure modes (IndexedDBStorage reads)

IndexedDBStorage.getThreads and getThreadById both have the shape

  try { await init(); return new Promise(...) } catch (e) { return default }

The await init() failure is raised inside the try block, so it is caught
and the default ([] or null) is returned.  The promise built afterwards is
returned without an await, so a rejection fired by request.onerror happens
after the try block was already left: it reaches the caller as a rejected
promise, not the catch.  The facade wrappers catch, log and rethrow. -/

/-- State of the local IndexedDB engine for the read operations: whether
the database open succeeds, whether a read request on an open database
fires onerror, and the stored threads. -/
structure LocalDB where
  initOk : Bool
  readFails : Bool
  threads : List Thread
deriving Repr, DecidableEq

/-- IndexedDBStorage.getThreads. -/
def idbGetThreads (db : LocalDB) : Except StorageErr (List Thread) :=
  if db.initOk = false then .ok []
  else if db.readFails = true then .error .ioFailure
  else .ok db.threads

/-- IndexedDBStorage.getThreadById. -/
def idbGetThreadById (db : LocalDB) (threadId : String) :
    Except StorageErr (Option Thread) :=
  if db.initOk = false then .ok none
  else if db.readFails = true then .error .ioFailure
  else .ok (getThreadById db.threads threadId)

/-- storageService.getThreads in local mode: try the engine read, catch,
log, and rethrow -- the identity on both outcomes. -/
def facadeGetThreads (db : LocalDB) : Except StorageErr (List Thread) :=
  match idbGetThreads db with
  | .ok v => .ok v
  | .error e => .error e

/-- storageService.getThread in local mode. -/
def facadeGetThread (db : LocalDB) (threadId : String) :
    Except StorageErr (Option Thread) :=
  match idbGetThreadById db threadId with
  | .ok v => .ok v
  | .error e => .error e

/-! ## IndexedDBStorage.saveThreads -/

/-- One element of the array handed to saveThreads, as JavaScript sees it:
a falsy value, a truthy non-object, or an object whose id field is the id
of the carried thread (the empty string standing for a missing or falsy
id). -/
inductive RawRecord where
  | nullish
  | nonObject
  | obj (t : Thread)
deriving Repr, DecidableEq

/-- The filter: thread is truthy, of object type, and carries a truthy id. -/
def rawKeep : RawRecord → Option Thread
  | .obj t => if t.id ≠ "" then some t else none
  | _ => none

def cleanedOf (l : List RawRecord) : List Thread := l.filterMap rawKeep

/-- IndexedDBStorage.saveThreads over a healthy engine.  A non-array
argument returns false without touching the store.  Otherwise the cleaned
records replace the collection inside one readwrite transaction (clear
then one add per record).  store.add rejects a duplicate primary key,
which aborts the transaction: the store rolls back to its prior contents
and the returned promise is rejected (the rejection escapes the outer
catch because the promise is returned without an await). -/
def saveThreadsIDB (store : List Thread) (input : Option (List RawRecord)) :
    Except StorageErr Bool × List Thread :=
  match input with
  | none => (.ok false, store)
  | some threads =>
      let cleanedThreads := cleanedOf threads
      if (cleanedThreads.map (fun t => t.id)).Nodup then (.ok true, cleanedThreads)
      else (.error .ioFailure, store)

/-! ## Remote engine (firebaseStorage.js) -/

/-- An authenticated Firebase user. -/
structure User where
  email : String
  uid : String
deriving Repr, DecidableEq

/-- A Firestore thread document: the thread payload plus the metadata
stamps the remote engine adds.  Server timestamps are not modelled; no
claim depends on them. -/
structure RemoteDoc where
  thread : Thread
  lastModifiedBy : Option String
  lastModifiedByUid : Option String
  importedBy : Option String
  importedByUid : Option String
deriving Repr, DecidableEq

/-- The threads collection keyed by document id. -/
abbrev RemoteState := List (String × RemoteDoc)

/-- Firestore getDoc by id. -/
def lookupDoc (st : RemoteState) (threadId : String) : Option RemoteDoc :=
  (st.find? (fun p => p.1 == threadId)).map (fun p => p.2)

/-- Firestore setDoc: full replace when the id exists, create otherwise. -/
def setDocR (st : RemoteState) (threadId : String) (d : RemoteDoc) : RemoteState :=
  match st with
  | [] => [(threadId, d)]
  | p :: rest =>
      if p.1 == threadId then (threadId, d) :: rest
      else p :: setDocR rest threadId d

/-- The threadWithMeta object saveThread writes. -/
def mkSaveDoc (u : User) (t : Thread) : RemoteDoc :=
  ⟨t, some u.email, some u.uid, none, none⟩

/-- The threadWithMeta object importThreads writes. -/
def mkImportDoc (u : User) (t : Thread) : RemoteDoc :=
  ⟨t, none, none, some u.email, some u.uid⟩

/-- firebaseStorage.saveThread.  The last component counts the network
calls the operation performs; the auth guard runs before any of them. -/
def remoteSaveThread (sess : Option User) (st : RemoteState) (t : Thread) :
    Except StorageErr RemoteDoc × RemoteState × Nat :=
  match sess with
  | none => (.error .authRequired, st, 0)
  | some u =>
      let d := mkSaveDoc u t
      (.ok d, setDocR st t.id d, 1)

/-- firebaseStorage.getThreads (the updatedAt ordering of the query is not
modelled; no claim depends on it). -/
def remoteGetThreads (sess : Option User) (st : RemoteState) :
    Except StorageErr (List RemoteDoc) × RemoteState × Nat :=
  match sess with
  | none => (.error .authRequired, st, 0)
  | some _ => (.ok (st.map (fun p => p.2)), st, 1)

/-- firebaseStorage.getThread. -/
def remoteGetThread (sess : Option User) (st : RemoteState) (threadId : String) :
    Except StorageErr (Option RemoteDoc) × RemoteState × Nat :=
  match sess with
  | none => (.error .authRequired, st, 0)
  | some _ => (.ok (lookupDoc st threadId), st, 1)

/-- firebaseStorage.updateThread: getDoc, throw notFound when absent, else
updateDoc merges the update fields and restamps the modifier identity.
The storage facade only ever passes a complete thread object as updates,
so the merged document carries exactly the updates payload. -/
def remoteUpdateThread (sess : Option User) (st : RemoteState)
    (threadId : String) (updates : Thread) :
    Except StorageErr Bool × RemoteState × Nat :=
  match sess with
  | none => (.error .authRequired, st, 0)
  | some u =>
      match lookupDoc st threadId with
      | none => (.error .notFound, st, 1)
      | some d =>
          let merged :=
            { d with
                thread := updates
                lastModifiedBy := some u.email
                lastModifiedByUid := some u.uid }
          (.ok true, setDocR st threadId merged, 2)

/-- firebaseStorage.deleteThread: getDoc, throw notFound when absent, else
deleteDoc. -/
def remoteDeleteThread (sess : Option User) (st : RemoteState)
    (threadId : String) : Except StorageErr Bool × RemoteState × Nat :=
  match sess with
  | none => (.error .authRequired, st, 0)
  | some _ =>
      match lookupDoc st threadId with
      | none => (.error .notFound, st, 1)
      | some _ => (.ok true, st.filter (fun p => p.1 != threadId), 2)

/-- firebaseStorage.importThreads: one setDoc per thread, in order. -/
def remoteImportThreads (sess : Option User) (st : RemoteState)
    (threads : List Thread) :
    Except StorageErr (List RemoteDoc) × RemoteState × Nat :=
  match sess with
  | none => (.error .authRequired, st, 0)
  | some u =>
      let st' := threads.foldl (fun acc t => setDocR acc t.id (mkImportDoc u t)) st
      (.ok (threads.map (fun t => mkImportDoc u t)), st', threads.length)

/-! ## syncToRemote (storageService.js) -/

instance {ε α : Type} [DecidableEq ε] [DecidableEq α] : DecidableEq (Except ε α) := fun
  | .ok a, .ok b =>
    match decEq a b with
    | isTrue h => isTrue (h ▸ rfl)
    | isFalse h => isFalse fun hh => h (Except.ok.inj hh)
  | .ok _, .error _ => isFalse fun hh => Except.noConfusion hh
  | .error _, .ok _ => isFalse fun hh => Except.noConfusion hh
  | .error e, .error f =>
    match decEq e f with
    | isTrue h => isTrue (h ▸ rfl)
    | isFalse h => isFalse fun hh => h (Except.error.inj hh)

/-- The observable outcome of one syncToRemote call: the returned value,
the remote collection afterwards, how many reads of the local store were
performed, and how many network calls were issued. -/
structure SyncOut where
  result : Except StorageErr Nat
  remote : RemoteState
  localReads : Nat
  netCalls : Nat
deriving Repr, DecidableEq

/-- storageService.syncToRemote: throw when no session is active, else
read the whole local store once, bulk-import it when non-empty, and
return the local thread count. -/
def syncToRemote : Option User → List Thread → RemoteState → SyncOut
  | none, _, remote => ⟨.error .authRequired, remote, 0, 0⟩
  | some u, localThreads, remote =>
      if 0 < localThreads.length then
        let out := remoteImportThreads (some u) remote localThreads
        match out.1 with
        | .ok _ => ⟨.ok localThreads.length, out.2.1, 1, out.2.2⟩
        | .error e => ⟨.error e, out.2.1, 1, out.2.2⟩
      else ⟨.ok 0, remote, 1, 0⟩

/-! ## convertAnnotationsToCSV (dateUtils.js) -/

/-- notes.replace with a double quote pattern: each double quote becomes
two. -/
def escQuotes (s : String) : String :=
  ⟨s.data.flatMap (fun c => if c = '"' then ['"', '"'] else [c])⟩

/-- The headers array of the source. -/
def csvHeaders : List String :=
  ["Thread ID", "Thread Title", "Annotation Index", "Rating", "Notes",
   "Tags", "Timestamp"]

/-- The skip guard of the source: !thread.annotations ||
thread.annotations.length === 0.  A legacy bare object has an undefined
length, which is not === 0, so it is kept. -/
def csvSkip : AnnField → Bool
  | .absent => true
  | .arr l => l.isEmpty
  | .single _ => false

/-- The seven cells pushed for one (thread, annotation, index) triple. -/
def csvRowCells (thread : Thread) (index : Nat) (a : Annotation) : List String :=
  [ thread.id,
    thread.title.getD ("Thread " ++ thread.id),
    toString index,
    a.rating.getD "",
    (match a.notes with
     | some n => "\"" ++ escQuotes n ++ "\""
     | none => ""),
    (match a.tags with
     | some ts => String.intercalate ";" ts
     | none => ""),
    a.timestamp.getD "" ]

/-- The rows one thread contributes: skipped threads contribute nothing,
otherwise one row per element of the normalized annotations array with
its forEach index. -/
def csvThreadRows (thread : Thread) : List (List String) :=
  if csvSkip thread.annotations then []
  else (normalizeAnn thread.annotations).enum.map
    (fun p => csvRowCells thread p.1 p.2)

/-- dateUtils.convertAnnotationsToCSV: collect the rows with the forEach
push loop, join each row with commas, prepend the joined header row, and
join the lines with newlines. -/
def convertAnnotationsToCSV (threads : List Thread) : String :=
  let rows := threads.foldl (fun acc thread => acc ++ csvThreadRows thread)
    ([] : List (List String))
  String.intercalate "\n"
    (String.intercalate "," csvHeaders :: rows.map (String.intercalate ","))

/-- The header row exactly as the claim spells it. -/
def csvHeaderLineClaim : String :=
  "Thread ID,Thread Title,Annotation Index,Rating,Notes,Tags,Timestamp"

/-- Claim-side description of the data lines: one line per
(thread, annotation) pair over the threads with non-empty (normalized)
annotations, each line the comma-joined cells. -/
def csvLinesClaim (threads : List Thread) : List String :=
  threads.flatMap (fun thread =>
    if (normalizeAnn thread.annotations).isEmpty then []
    else (normalizeAnn thread.annotations).enum.map
      (fun p => String.intercalate "," (csvRowCells thread p.1 p.2)))

/-! ## Helper lemmas -/

lemma find?_id_eq {store : List Thread} {threadId : String} {t : Thread}
    (h : getThreadById store threadId = some t) : t.id = threadId := by
  have h0 : store.find? (fun x => x.id == threadId) = some t := h
  have h' : (t.id == threadId) = true :=
    @List.find?_some Thread (fun x => x.id == threadId) t store h0
  exact eq_of_beq h'

lemma getThreadById_replaceOrPush (store : List Thread) (threadId : String)
    (upd : Thread) (hupd : upd.id = threadId) :
    getThreadById (replaceOrPush store threadId upd) threadId = some upd := by
  induction store with
  | nil => simp [replaceOrPush, getThreadById, List.find?, hupd]
  | cons t rest ih =>
      by_cases ht : (t.id == threadId) = true
      · simp [replaceOrPush, ht, getThreadById, List.find?, hupd]
      · simp only [replaceOrPush, ht, if_false, Bool.false_eq_true]
        simpa [getThreadById, List.find?, ht] using ih

lemma filter_idem (p : Thread → Bool) (l : List Thread) :
    (l.filter p).filter p = l.filter p := by
  induction l with
  | nil => rfl
  | cons a l ih =>
      by_cases hp : p a <;> simp [List.filter_cons, hp, ih]

/-! ## Sample data used by witnesses and counterexamples -/

/-- A sample reviewer judgment carrying a caller-supplied timestamp. -/
def sampleAnn : Annotation :=
  ⟨some "good", some "note", some ["x"], some "2023-02-16T10:15:00Z",
   some "reviewer@example.com", some "user_123"⟩

/-- A sample thread holding one annotation. -/
def tA : Thread := ⟨"t1", none, true, .arr [sampleAnn], ["hello"]⟩

/-- A second sample thread with no annotations. -/
def tB : Thread := ⟨"t2", some "Weather", false, .absent, []⟩

/-- A sample authenticated user. -/
def user0 : User := ⟨"alice@example.com", "uid_0"⟩

/-! ## Claims -/

/-- C10: on the Local Engine, when updateThread(id, updates) fails because
no thread with that id exists, the notFound error is raised before any
write: the stored collection returned with the error is exactly the input
collection. -/
theorem C10_updateThread_notFound_atomic (store : List Thread)
    (threadId : String) (updates : Thread)
    (h : getThreadById store threadId = none) :
    updateThreadL store threadId updates = (.error .notFound, store) := by
  simp [updateThreadL, h]

theorem C10_witness :
    getThreadById [tB] "t1" = none ∧
    updateThreadL [tB] "t1" tA = (.error .notFound, [tB]) :=
  ⟨by decide, C10_updateThread_notFound_atomic [tB] "t1" tA (by decide)⟩

/-- C1: for every thread and every sequence of annotation-append and
annotation-delete mutations issued through the storage facade, the thread
state written back after each operation of the sequence satisfies
isAnnotated = (annotations.length > 0). -/
theorem C1_isAnnotated_matches_annotations (t : Thread) (ops : List AnnOp)
    (i : Nat) (h : i < ops.length) :
    annInv ((ops.take (i + 1)).foldl applyAnnOpT t) := by
  have hlen : 0 < (ops.take (i + 1)).length := by
    simp only [List.length_take]
    omega
  exact annInv_foldl _ _ (List.ne_nil_of_length_pos hlen)

theorem C1_witness :
    0 < [AnnOp.del 0, AnnOp.del 0].length ∧
    annInv (([AnnOp.del 0, AnnOp.del 0].take (0 + 1)).foldl applyAnnOpT tA) :=
  ⟨by decide, C1_isAnnotated_matches_annotations tA [AnnOp.del 0, AnnOp.del 0] 0 (by decide)⟩

/-- C2 (counterexample): the claim says a negative index leaves the
annotations unchanged, but on the stored thread tA (one annotation) the
call deleteAnnotation("t1", -1) succeeds and empties the annotations: the
guard length > index passes for a negative index and splice counts a
negative start from the end of the array. -/
theorem C2_counterexample :
    ((-1 : Int) < 0) ∧
    (deleteAnnotationL [tA] "t1" (-1)).1 = .ok true ∧
    (deleteAnnotationL [tA] "t1" (-1)).2 =
      [{ tA with annotations := .arr [], isAnnotated := false }] ∧
    ({ tA with annotations := .arr [], isAnnotated := false }).annotations ≠
      tA.annotations := by
  decide

/-- C2 (amended): for every stored thread and index ≥ annotations.length,
deleteAnnotation leaves the (normalized) annotations sequence unchanged
and completes without error; an index < 0, however, is not rejected: the
call still completes without error but removes the splice(index, 1)
element, which is the element at max(length + index, 0) whenever the
sequence is non-empty. -/
theorem C2_amended (store : List Thread) (threadId : String) (index : Int)
    (t : Thread) (h : getThreadById store threadId = some t) :
    (deleteAnnotationL store threadId index).1 = .ok true ∧
    (((normalizeAnn t.annotations).length : Int) ≤ index →
      getThreadById (deleteAnnotationL store threadId index).2 threadId =
        some { t with
                 annotations := .arr (normalizeAnn t.annotations)
                 isAnnotated := decide ((normalizeAnn t.annotations).length > 0) }) ∧
    (index < 0 →
      getThreadById (deleteAnnotationL store threadId index).2 threadId =
        some { t with
                 annotations := .arr (spliceOne (normalizeAnn t.annotations) index)
                 isAnnotated :=
                   decide ((spliceOne (normalizeAnn t.annotations) index).length > 0) }) := by
  have hid : t.id = threadId := find?_id_eq h
  have heq : deleteAnnotationL store threadId index =
      (.ok true, replaceOrPush store threadId (deleteAnnotationT t index)) := by
    simp [deleteAnnotationL, h, updateThreadL, mergeFull]
  refine ⟨by rw [heq], ?_, ?_⟩
  · intro hge
    have hguard : ¬ (((normalizeAnn t.annotations).length : Int) > index) := by omega
    have hw : deleteAnnotationT t index =
        { t with
            annotations := .arr (normalizeAnn t.annotations)
            isAnnotated := decide ((normalizeAnn t.annotations).length > 0) } := by
      simp [deleteAnnotationT, hguard]
    rw [heq, hw]
    exact getThreadById_replaceOrPush store threadId _ hid
  · intro hneg
    have hguard : ((normalizeAnn t.annotations).length : Int) > index := by omega
    have hw : deleteAnnotationT t index =
        { t with
            annotations := .arr (spliceOne (normalizeAnn t.annotations) index)
            isAnnotated :=
              decide ((spliceOne (normalizeAnn t.annotations) index).length > 0) } := by
      simp [deleteAnnotationT, hguard]
    rw [heq, hw]
    exact getThreadById_replaceOrPush store threadId _ hid

theorem C2_witness :
    getThreadById [tA] "t1" = some tA ∧
    (deleteAnnotationL [tA] "t1" 5).1 = .ok true ∧
    getThreadById (deleteAnnotationL [tA] "t1" 5).2 "t1" =
      some { tA with
               annotations := .arr (normalizeAnn tA.annotations)
               isAnnotated := decide ((normalizeAnn tA.annotations).length > 0) } :=
  ⟨by decide,
   (C2_amended [tA] "t1" 5 tA (by decide)).1,
   (C2_amended [tA] "t1" 5 tA (by decide)).2.1 (by decide)⟩

/-- C7: updateAnnotation on an existing thread normalizes the annotations
to a sequence, appends exactly one annotation at the end equal to the
caller data with its timestamp overwritten by the mutation time (so the
caller identity fields createdBy / createdByUid pass through unchanged),
sets isAnnotated to true and writes the thread back; on a missing thread
id it fails with notFound. -/
theorem C7_updateAnnotation_spec (store : List Thread) (threadId : String)
    (data : Annotation) (now : String) :
    (getThreadById store threadId = none →
      updateAnnotationL store threadId data now = (.error .notFound, store)) ∧
    (∀ t, getThreadById store threadId = some t →
      (updateAnnotationL store threadId data now).1 = .ok true ∧
      getThreadById (updateAnnotationL store threadId data now).2 threadId =
        some { t with
                 isAnnotated := true
                 annotations := .arr (normalizeAnn t.annotations ++
                   [{ data with timestamp := some now }]) }) := by
  constructor
  · intro h
    simp [updateAnnotationL, h]
  · intro t h
    have hid : t.id = threadId := find?_id_eq h
    have heq : updateAnnotationL store threadId data now =
        (.ok true, replaceOrPush store threadId (appendAnnotationT t data now)) := by
      simp [updateAnnotationL, h, updateThreadL, mergeFull]
    rw [heq]
    exact ⟨rfl, getThreadById_replaceOrPush store threadId _ hid⟩

theorem C7_witness :
    getThreadById [tB] "t2" = some tB ∧
    (updateAnnotationL [tB] "t2" sampleAnn "2026-10-11T00:00:00Z").1 = .ok true ∧
    getThreadById (updateAnnotationL [tB] "t2" sampleAnn "2026-10-11T00:00:00Z").2 "t2" =
      some { tB with
               isAnnotated := true
               annotations := .arr (normalizeAnn tB.annotations ++
                 [{ sampleAnn with timestamp := some "2026-10-11T00:00:00Z" }]) } :=
  ⟨by decide,
   ((C7_updateAnnotation_spec [tB] "t2" sampleAnn "2026-10-11T00:00:00Z").2 tB (by decide)).1,
   ((C7_updateAnnotation_spec [tB] "t2" sampleAnn "2026-10-11T00:00:00Z").2 tB (by decide)).2⟩

/-- C3 (counterexample): the claim says the facade reads return an empty
result whenever a read request fails, but on an open engine whose read
request fails (initOk = true, readFails = true) the facade getThreads
propagates the error instead of returning the empty list: the rejected
promise is returned from inside the try block without an await, and the
facade catch block rethrows. -/
theorem C3_counterexample :
    facadeGetThreads ⟨true, true, []⟩ = .error .ioFailure ∧
    facadeGetThreads ⟨true, true, []⟩ ≠ .ok [] := by
  decide

/-- C3 (amended): when the engine cannot be opened, the engine-level catch
swallows the failure and the facade reads return an empty result
(getThreads the empty list, getThread absent); but when the engine opens
and the read request itself fails, the error propagates through the
facade to the caller. -/
theorem C3_amended (db : LocalDB) :
    (db.initOk = false →
      facadeGetThreads db = .ok [] ∧
      ∀ threadId, facadeGetThread db threadId = .ok none) ∧
    (db.initOk = true → db.readFails = true →
      facadeGetThreads db = .error .ioFailure ∧
      ∀ threadId, facadeGetThread db threadId = .error .ioFailure) := by
  constructor
  · intro h
    refine ⟨?_, fun threadId => ?_⟩ <;>
      simp [facadeGetThreads, facadeGetThread, idbGetThreads, idbGetThreadById, h]
  · intro h1 h2
    refine ⟨?_, fun threadId => ?_⟩ <;>
      simp [facadeGetThreads, facadeGetThread, idbGetThreads, idbGetThreadById, h1, h2]

theorem C3_witness :
    facadeGetThreads ⟨false, true, [tA]⟩ = .ok [] ∧
    facadeGetThread ⟨false, true, [tA]⟩ "t1" = .ok none ∧
    facadeGetThread ⟨true, true, [tA]⟩ "t1" = .error .ioFailure :=
  ⟨((C3_amended ⟨false, true, [tA]⟩).1 rfl).1,
   ((C3_amended ⟨false, true, [tA]⟩).1 rfl).2 "t1",
   ((C3_amended ⟨true, true, [tA]⟩).2 rfl rfl).2 "t1"⟩

/-- C4 (counterexample): the claim says deleteThread of an id that was
never present returns false on the Remote engine too, but the remote
implementation throws a notFound error after its existence getDoc check
instead of returning false. -/
theorem C4_counterexample :
    (remoteDeleteThread (some user0) [] "missing").1 = .error .notFound ∧
    (remoteDeleteThread (some user0) [] "missing").1 ≠ .ok false := by
  decide

/-- C4 (amended): on the Local engine, deleteThread of an absent id
returns false (no error) and leaves the collection unchanged, and a
second deleteThread of the same id leaves the collection in the same
state as one call; the Remote engine, by contrast, throws notFound for an
absent id (after its one getDoc existence check) and leaves the remote
collection unchanged. -/
theorem C4_amended (store : List Thread) (threadId : String) (u : User)
    (st : RemoteState) :
    (getThreadById store threadId = none →
      deleteThreadL store threadId = (.ok false, store)) ∧
    ((deleteThreadL (deleteThreadL store threadId).2 threadId).2 =
      (deleteThreadL store threadId).2) ∧
    (lookupDoc st threadId = none →
      remoteDeleteThread (some u) st threadId = (.error .notFound, st, 1)) := by
  refine ⟨?_, ?_, ?_⟩
  · intro h
    have h0 : store.find? (fun x => x.id == threadId) = none := h
    have hall : ∀ x ∈ store, (x.id != threadId) = true := by
      intro x hx
      have := List.find?_eq_none.mp h0 x hx
      simpa using this
    have hfilter : store.filter (fun x => x.id != threadId) = store :=
      List.filter_eq_self.mpr hall
    simp [deleteThreadL, hfilter]
  · by_cases hlen :
        (store.filter (fun x => x.id != threadId)).length = store.length
    · simp [deleteThreadL, hlen]
    · have hfix := filter_idem (fun x => x.id != threadId) store
      simp [deleteThreadL, hlen, hfix]
  · intro h
    simp [remoteDeleteThread, h]

theorem C4_witness :
    deleteThreadL [tA] "t9" = (.ok false, [tA]) ∧
    (deleteThreadL (deleteThreadL [tA, tB] "t1").2 "t1").2 =
      (deleteThreadL [tA, tB] "t1").2 ∧
    remoteDeleteThread (some user0) [("t1", mkSaveDoc user0 tA)] "t9" =
      (.error .notFound, [("t1", mkSaveDoc user0 tA)], 1) :=
  ⟨(C4_amended [tA] "t9" user0 []).1 (by decide),
   (C4_amended [tA, tB] "t1" user0 []).2.1,
   (C4_amended [] "t9" user0 [("t1", mkSaveDoc user0 tA)]).2.2 (by decide)⟩

/-- C5: with no authenticated session, every Remote engine operation
(saveThread, getThreads, getThread, updateThread, deleteThread,
importThreads) fails with the authentication error, issues zero network
calls, and leaves the remote collection unchanged. -/
theorem C5_remote_requires_auth (st : RemoteState) (t updates : Thread)
    (threadId : String) (threads : List Thread) :
    remoteSaveThread none st t = (.error .authRequired, st, 0) ∧
    remoteGetThreads none st = (.error .authRequired, st, 0) ∧
    remoteGetThread none st threadId = (.error .authRequired, st, 0) ∧
    remoteUpdateThread none st threadId updates = (.error .authRequired, st, 0) ∧
    remoteDeleteThread none st threadId = (.error .authRequired, st, 0) ∧
    remoteImportThreads none st threads = (.error .authRequired, st, 0) :=
  ⟨rfl, rfl, rfl, rfl, rfl, rfl⟩

/-- A sample saveThreads input mixing malformed records (a falsy element,
a non-object element, an object without an id) with two valid threads. -/
def rawMix : List RawRecord :=
  [.nullish, .obj tA, .nonObject, .obj ⟨"", none, false, .absent, []⟩, .obj tB]

/-- A second thread carrying the same id as tA. -/
def tAdup : Thread := ⟨"t1", some "duplicate", false, .absent, []⟩

/-- A saveThreads input whose structurally valid records share an id. -/
def rawDup : List RawRecord := [.obj tA, .nonObject, .obj tAdup]

/-- C6 (counterexample): the claim says any input with N structurally
valid records ends with exactly those N records stored and the call
succeeding, but with two valid records sharing the id t1 the add of the
duplicate primary key aborts the readwrite transaction: the store rolls
back to its prior contents and the call fails as a whole instead of
persisting the two valid records. -/
theorem C6_counterexample :
    cleanedOf rawDup = [tA, tAdup] ∧
    saveThreadsIDB [tB] (some rawDup) = (.error .ioFailure, [tB]) ∧
    (saveThreadsIDB [tB] (some rawDup)).1 ≠ .ok true ∧
    (saveThreadsIDB [tB] (some rawDup)).2 ≠ [tA, tAdup] := by
  decide

/-- C6 (amended): the Local engine saveThreads filters out the malformed
records (falsy values, non-objects, objects without an id) before the
write; when the remaining valid records carry pairwise distinct ids,
exactly those valid records become the new collection contents and the
call succeeds; when two valid records share an id, the duplicate key
aborts the transaction, the store keeps its prior contents, and the call
fails as a whole. -/
theorem C6_amended (store : List Thread) (l : List RawRecord) :
    (((cleanedOf l).map (fun t => t.id)).Nodup →
      saveThreadsIDB store (some l) = (.ok true, cleanedOf l)) ∧
    (¬ ((cleanedOf l).map (fun t => t.id)).Nodup →
      saveThreadsIDB store (some l) = (.error .ioFailure, store)) := by
  constructor
  · intro h
    simp only [saveThreadsIDB]
    rw [if_pos h]
  · intro h
    simp only [saveThreadsIDB]
    rw [if_neg h]

theorem C6_witness :
    saveThreadsIDB [tB] (some rawMix) = (.ok true, cleanedOf rawMix) ∧
    saveThreadsIDB [tB] (some rawDup) = (.error .ioFailure, [tB]) :=
  ⟨(C6_amended [tB] rawMix).1 (by decide),
   (C6_amended [tB] rawDup).2 (by decide)⟩

/-- C8: syncToRemote with no authenticated session fails with the
authentication error before reading the local store or issuing any
network call; with a session it reads the local store once, imports every
local thread through the remote bulk import, and returns the local thread
count as the count synced. -/
theorem C8_syncToRemote_spec (u : User) (localThreads : List Thread)
    (remote : RemoteState) :
    syncToRemote none localThreads remote = ⟨.error .authRequired, remote, 0, 0⟩ ∧
    syncToRemote (some u) localThreads remote =
      ⟨.ok localThreads.length,
       (remoteImportThreads (some u) remote localThreads).2.1, 1,
       localThreads.length⟩ := by
  refine ⟨rfl, ?_⟩
  by_cases hl : 0 < localThreads.length
  · simp [syncToRemote, hl, remoteImportThreads]
  · have h0 : localThreads = [] :=
      List.length_eq_zero.mp (by omega)
    subst h0
    simp [syncToRemote, remoteImportThreads]

/-- The rows push loop of the source is a fold appending each thread
contribution. -/
lemma foldl_append_eq_flatMap {α β : Type} (f : α → List β) (l : List α) :
    ∀ acc : List β, l.foldl (fun a x => a ++ f x) acc = acc ++ l.flatMap f := by
  induction l with
  | nil => intro acc; simp
  | cons a l ih =>
      intro acc
      simp [List.foldl_cons, ih, List.flatMap_cons, List.append_assoc]

/-- The source skip guard agrees with non-emptiness of the normalized
annotations sequence. -/
lemma csvSkip_eq_isEmpty (f : AnnField) :
    csvSkip f = (normalizeAnn f).isEmpty := by
  cases f <;> simp [csvSkip, normalizeAnn]

/-- C9: convertAnnotationsToCSV emits exactly the claimed header row,
followed by one comma-joined row per (thread, annotation) pair over the
threads with non-empty annotations, with the claimed Notes quoting and
the Tags joined by semicolons. -/
theorem C9_csv_matches_claim (threads : List Thread) :
    convertAnnotationsToCSV threads =
      String.intercalate "\n" (csvHeaderLineClaim :: csvLinesClaim threads) := by
  unfold convertAnnotationsToCSV csvLinesClaim
  rw [foldl_append_eq_flatMap]
  simp only [List.nil_append]
  have hheader : String.intercalate "," csvHeaders = csvHeaderLineClaim := by
    decide
  rw [hheader]
  congr 1
  rw [List.map_flatMap]
  have hfun : (fun t => (csvThreadRows t).map (String.intercalate ",")) =
      (fun thread => if (normalizeAnn thread.annotations).isEmpty then ([] : List String)
        else (normalizeAnn thread.annotations).enum.map
          (fun p => String.intercalate "," (csvRowCells thread p.1 p.2))) := by
    funext t
    unfold csvThreadRows
    rw [csvSkip_eq_isEmpty]
    by_cases he : (normalizeAnn t.annotations).isEmpty
    · simp [he]
    · simp [he, List.map_map, Function.comp]
  rw [hfun]

end AnnTool
